import Mathlib

set_option maxRecDepth 8000

/-!
Shallow embedding of `sunpycube/spectra/spectrum.py` (class `Spectrum`).

Numeric values (data samples, axis positions, quantity magnitudes) are
modelled as rationals.  Astropy units are modelled as a positive scale
factor relative to a fixed base unit, so that `Quantity.to` is the usual
rescaling; for all the scenarios below conversion is within one unit and
is the identity.  Python exceptions are modelled with `Except PyErr`.
-/

/-- Model of an astropy unit: a conversion scale relative to a base unit. -/
structure AUnit where
  scale : ℚ
deriving DecidableEq, Repr

/-- Model of `astropy.units.Quantity`: a magnitude tagged with a unit. -/
structure Quantity where
  value : ℚ
  unit : AUnit
deriving DecidableEq, Repr

/-- Model of `Quantity.to(u)`: rescale the magnitude into unit `u`. -/
def Quantity.to (q : Quantity) (u : AUnit) : Quantity :=
  ⟨q.value * q.unit.scale / u.scale, u⟩

/-- Python exception kinds raised by the modelled code. -/
inductive PyErr where
  | indexError (msg : String)
  | typeError (msg : String)
  | valueError (msg : String)
deriving DecidableEq, Repr

/-- The `Spectrum` object: `data`, `axis` and `axis_unit`
(`uncertainty`/`mask` play no role in the modelled operations). -/
structure Spectrum where
  data : List ℚ
  axis : List ℚ
  axis_unit : AUnit
deriving DecidableEq, Repr

/-- First index of the minimum of a list (`np.argmin`: ties go to the
first occurrence in scan order). -/
def argminList : List ℚ → Nat
  | [] => 0
  | [_] => 0
  | x :: y :: rest =>
      if (y :: rest).getD (argminList (y :: rest)) 0 < x then argminList (y :: rest) + 1
      else 0

/-- First index of the maximum of a list (`np.argmax`: ties go to the
first occurrence in scan order). -/
def argmaxList : List ℚ → Nat
  | [] => 0
  | [_] => 0
  | x :: y :: rest =>
      if x < (y :: rest).getD (argmaxList (y :: rest)) 0 then argmaxList (y :: rest) + 1
      else 0

/-- Maximum value of a list (`ndarray.max()`). -/
def npMax : List ℚ → ℚ
  | [] => 0
  | [x] => x
  | x :: y :: rest => max x (npMax (y :: rest))

/-- Index of the axis entry closest to `v`: `(np.abs(self.axis - value)).argmin()`. -/
def argminAbs (xs : List ℚ) (v : ℚ) : Nat :=
  argminList (xs.map (fun t => |t - v|))

/-- Python integer indexing of a one-dimensional array (`xs[i]`): negative
indices count from the end, out-of-range indices raise `IndexError`. -/
def pyGetInt (xs : List ℚ) (i : Int) : Except PyErr ℚ :=
  if 0 ≤ i ∧ i < (xs.length : Int) then .ok (xs.getD i.toNat 0)
  else if i < 0 ∧ 0 ≤ (xs.length : Int) + i then .ok (xs.getD ((xs.length : Int) + i).toNat 0)
  else .error (.indexError "index out of range")

/-- Indexing an array with a numeric (possibly non-integral) value, as the
code does with the axis value returned by `_qty_to_pixel`: numpy accepts
only integer-valued indices and raises `IndexError` otherwise. -/
def pyGetRat (xs : List ℚ) (q : ℚ) : Except PyErr ℚ :=
  if q.den = 1 then pyGetInt xs q.num
  else .error (.indexError "only integers are valid indices")

/-- Argument to `_qty_to_pixel`: a bare numeric value or a `Quantity`. -/
inductive QN where
  | num (v : ℚ)
  | qty (q : Quantity)
deriving DecidableEq, Repr

/-- `Spectrum._qty_to_pixel`: convert a quantity to the spectrum's own unit
(bare numbers are taken as already in that unit) and return the axis VALUE
closest to it.  `argmin` on an empty axis raises `ValueError`. -/
def Spectrum.qty_to_pixel (S : Spectrum) (x : QN) : Except PyErr ℚ :=
  let value : ℚ :=
    match x with
    | .qty q => (q.to S.axis_unit).value
    | .num v => v
  if S.axis = [] then .error (.valueError "attempt to get argmin of an empty sequence")
  else .ok (S.axis.getD (argminAbs S.axis value) 0)

/-- `Spectrum._make_line_guess`: amplitude and position of the data maximum,
with a half-maximum-crossing width estimate.  Note the source computes BOTH
`rval` and `lval` from the after-peak sub-array `diffs[argamp:]`, and both
are sub-array-relative indices. -/
def Spectrum.make_line_guess (S : Spectrum) : Except PyErr (ℚ × ℚ × ℚ) :=
  if S.data = [] then .error (.valueError "zero-size array reduction")
  else
    let amp := npMax S.data
    let argamp := argmaxList S.data
    match pyGetInt S.axis (argamp : Int) with
    | .error e => .error e
    | .ok mean =>
      let diffs := S.data.map (fun x => |x - amp / 2|)
      let rval : Nat :=
        if 0 < (diffs.drop argamp).length then argminList (diffs.drop argamp)
        else diffs.length - 1
      let lval : Nat :=
        if 0 < (diffs.take argamp).length then argminList (diffs.drop argamp)
        else 0
      match pyGetInt S.axis (rval : Int) with
      | .error e => .error e
      | .ok rax =>
        match pyGetInt S.axis (lval : Int) with
        | .error e => .error e
        | .ok lax => .ok (amp, mean, rax - lax)

/-- A Python object appearing as a slice component (`start`, `stop` or
`step`): `None`, an `int`, a `float`, or a `Quantity`. -/
inductive Bnd where
  | pynone
  | int (i : Int)
  | float (v : ℚ)
  | qty (q : Quantity)
deriving DecidableEq, Repr

/-- A Python `slice` object. -/
structure PySlice where
  start : Bnd
  stop : Bnd
  step : Bnd
deriving DecidableEq, Repr

/-- A slice bound after `_intify_slice`: `None`, an untouched Python `int`,
or a (numpy float) axis value produced by `_qty_to_pixel`. -/
inductive FinBnd where
  | fnone
  | fint (i : Int)
  | fval (q : ℚ)
deriving DecidableEq, Repr

/-- The tail of `_intify_slice` when a unit was assigned: both bounds are
passed through `_qty_to_pixel`.  At this point each bound is either a
`Quantity` or still `None`; `_qty_to_pixel(None)` raises a `TypeError`
when the axis array is subtracted from `None`. -/
def unitTail (S : Spectrum) (st sp : Option Quantity) (c : Int) :
    Except PyErr (FinBnd × FinBnd × Int) :=
  match st with
  | Option.none => .error (.typeError "unsupported operand type")
  | Option.some q =>
    match S.qty_to_pixel (.qty q) with
    | .error e => .error e
    | .ok a =>
      match sp with
      | Option.none => .error (.typeError "unsupported operand type")
      | Option.some q2 =>
        match S.qty_to_pixel (.qty q2) with
        | .error e => .error e
        | .ok b => .ok (.fval a, .fval b, c)

/-- `Spectrum._intify_slice`: the unit-inference chain over the types of
`start` and `stop`.  The step must be a Python `int`, otherwise
`IndexError` is raised first; `None` is not an `int`. -/
def Spectrum.intify_slice (S : Spectrum) (sl : PySlice) :
    Except PyErr (FinBnd × FinBnd × Int) :=
  match sl.step with
  | .int c =>
    match sl.start with
    | .qty q =>
      -- unit = start.unit; an int or float stop is multiplied into that unit
      (match sl.stop with
       | .int i => unitTail S (Option.some q) (Option.some ⟨(i : ℚ), q.unit⟩) c
       | .float w => unitTail S (Option.some q) (Option.some ⟨w, q.unit⟩) c
       | .qty q2 => unitTail S (Option.some q) (Option.some q2) c
       | .pynone => unitTail S (Option.some q) Option.none c)
    | .float v =>
      -- unit from a quantity stop, else the spectrum's own unit
      (match sl.stop with
       | .qty q2 => unitTail S (Option.some ⟨v, q2.unit⟩) (Option.some q2) c
       | .int i => unitTail S (Option.some ⟨v, S.axis_unit⟩) (Option.some ⟨(i : ℚ), S.axis_unit⟩) c
       | .float w => unitTail S (Option.some ⟨v, S.axis_unit⟩) (Option.some ⟨w, S.axis_unit⟩) c
       | .pynone => unitTail S (Option.some ⟨v, S.axis_unit⟩) Option.none c)
    | .int i =>
      -- only a quantity or float stop assigns a unit; otherwise pass through
      (match sl.stop with
       | .qty q2 => unitTail S (Option.some ⟨(i : ℚ), q2.unit⟩) (Option.some q2) c
       | .float w => unitTail S (Option.some ⟨(i : ℚ), S.axis_unit⟩) (Option.some ⟨w, S.axis_unit⟩) c
       | .int j => .ok (.fint i, .fint j, c)
       | .pynone => .ok (.fint i, .fnone, c))
    | .pynone =>
      (match sl.stop with
       | .qty q2 => unitTail S Option.none (Option.some q2) c
       | .float w => unitTail S Option.none (Option.some ⟨w, S.axis_unit⟩) c
       | .int j => .ok (.fnone, .fint j, c)
       | .pynone => .ok (.fnone, .fnone, c))
  | _ => .error (.indexError "The step must be an int")

/-- Ascending index walk of a positive-step slice: `lo, lo+c, ...` while
below `hi`.  Fuel bounds the recursion; callers pass enough fuel for every
index in range. -/
def upIdx : Nat → Int → Int → Int → List Int
  | 0, _, _, _ => []
  | fuel + 1, lo, hi, c => if lo < hi then lo :: upIdx fuel (lo + c) hi c else []

/-- Descending index walk of a negative-step slice: `lo, lo+c, ...` while
above `hi`. -/
def downIdx : Nat → Int → Int → Int → List Int
  | 0, _, _, _ => []
  | fuel + 1, lo, hi, c => if hi < lo then lo :: downIdx fuel (lo + c) hi c else []

/-- Python slicing `xs[a:b:c]` for `c ≠ 0`: CPython index normalisation
(clamping, negative indices counting from the end) followed by the index
walk. -/
def pySliceList (xs : List ℚ) (a b : Option Int) (c : Int) : List ℚ :=
  let n : Int := xs.length
  if 0 < c then
    let lo : Int := match a with
      | Option.none => 0
      | Option.some i => if i < 0 then max (n + i) 0 else min i n
    let hi : Int := match b with
      | Option.none => n
      | Option.some i => if i < 0 then max (n + i) 0 else min i n
    (upIdx (xs.length + 1) lo hi c).map (fun i => xs.getD i.toNat 0)
  else
    let lo : Int := match a with
      | Option.none => n - 1
      | Option.some i => if i < 0 then max (n + i) (-1) else min i (n - 1)
    let hi : Int := match b with
      | Option.none => -1
      | Option.some i => if i < 0 then max (n + i) (-1) else min i (n - 1)
    (downIdx (xs.length + 1) lo hi c).map (fun i => xs.getD i.toNat 0)

/-- Use an intified slice on a numpy array: integer bounds pass through,
axis-value bounds must be integer-valued, a zero step raises `ValueError`. -/
def pySliceArr (xs : List ℚ) (a b : FinBnd) (c : Int) : Except PyErr (List ℚ) :=
  let conv : FinBnd → Except PyErr (Option Int) := fun fb =>
    match fb with
    | .fnone => .ok Option.none
    | .fint i => .ok (Option.some i)
    | .fval q => if q.den = 1 then .ok (Option.some q.num)
                 else .error (.indexError "only integers are valid indices")
  match conv a with
  | .error e => .error e
  | .ok a? =>
    match conv b with
    | .error e => .error e
    | .ok b? =>
      if c = 0 then .error (.valueError "slice step cannot be zero")
      else .ok (pySliceList xs a? b? c)

/-- The kinds of object `Spectrum.__getitem__` dispatches on. -/
inductive Idx where
  | int (i : Int)
  | float (v : ℚ)
  | qty (q : Quantity)
  | slice (sl : PySlice)
  | tup
  | pynone
deriving DecidableEq, Repr

/-- Result of `Spectrum.__getitem__`: a single sample or a sub-`Spectrum`. -/
inductive GetRes where
  | val (v : ℚ)
  | spec (S : Spectrum)
deriving DecidableEq, Repr

/-- `Spectrum.__getitem__`: dispatch on the index kind.  Floats and
quantities go through `_qty_to_pixel` and the returned axis value is used
to index `data`; slices go through `_intify_slice` and slice both `data`
and `axis` into a new `Spectrum` with the same unit. -/
def Spectrum.getitem (S : Spectrum) : Idx → Except PyErr GetRes
  | .int i =>
    match pyGetInt S.data i with
    | .error e => .error e
    | .ok v => .ok (.val v)
  | .float v =>
    match S.qty_to_pixel (.qty ⟨v, S.axis_unit⟩) with
    | .error e => .error e
    | .ok p =>
      match pyGetRat S.data p with
      | .error e => .error e
      | .ok d => .ok (.val d)
  | .qty q =>
    match S.qty_to_pixel (.qty q) with
    | .error e => .error e
    | .ok p =>
      match pyGetRat S.data p with
      | .error e => .error e
      | .ok d => .ok (.val d)
  | .slice sl =>
    match S.intify_slice sl with
    | .error e => .error e
    | .ok (a, b, c) =>
      match pySliceArr S.data a b c with
      | .error e => .error e
      | .ok nd =>
        match pySliceArr S.axis a b c with
        | .error e => .error e
        | .ok na => .ok (.spec ⟨nd, na, S.axis_unit⟩)
  | .tup => .error (.indexError "Too many indices for a Spectrum")
  | .pynone => .error (.indexError "None indices not supported")

/-- A length unit with unit scale, used by the spec scenarios. -/
def unitL : AUnit := ⟨1⟩

/-- The spec scenario spectrum: `data=[0,1,4,9,4,1,0]`, `axis=[0..6]`. -/
def specScen : Spectrum := ⟨[0, 1, 4, 9, 4, 1, 0], [0, 1, 2, 3, 4, 5, 6], unitL⟩

/-!
Store-passing model of array ownership, for the aliasing behaviour of
slicing and the in-place axis mutations.  numpy basic slicing returns a
VIEW of the parent buffer and the `Spectrum` constructor stores arrays
without copying, so a slice-derived spectrum holds windows into the
parent's buffers.  `shift_axis` mutates its axis window in place
(`self.axis += ...`); `map_to_axis` builds a fresh list and rebinds
(`self.axis = newaxis`).
-/

/-- A heap of one-dimensional numeric buffers. -/
abbrev ArrStore := List (List ℚ)

/-- A contiguous window (numpy step-1 view) into one buffer of the store. -/
structure AxView where
  buf : Nat
  off : Nat
  len : Nat
deriving DecidableEq, Repr

/-- The numeric contents a view denotes in a given store. -/
def readView (σ : ArrStore) (v : AxView) : List ℚ :=
  ((σ.getD v.buf []).drop v.off).take v.len

/-- A `Spectrum` whose `data` and `axis` live in the store. -/
structure SpectrumSt where
  data : AxView
  axis : AxView
  axis_unit : AUnit
deriving DecidableEq, Repr

/-- numpy basic slicing `[a:b:1]` (plain non-negative int bounds) of a
one-dimensional view: a sub-view of the same buffer, no allocation. -/
def sliceView (v : AxView) (a b : Nat) : AxView :=
  ⟨v.buf, v.off + min a v.len, min b v.len - min a v.len⟩

/-- `Spectrum.__getitem__` with a plain-int slice `[a:b:1]` in the store
model: `_intify_slice` passes the bounds through unchanged and the new
`Spectrum` holds views of the parent's `data` and `axis` buffers. -/
def SpectrumSt.getitemSlice (S : SpectrumSt) (a b : Nat) : SpectrumSt :=
  ⟨sliceView S.data a b, sliceView S.axis a b, S.axis_unit⟩

/-- Apply `f` to the elements of positions `[off, off+len)` of a buffer. -/
def writeRange (buf : List ℚ) (off len : Nat) (f : ℚ → ℚ) : List ℚ :=
  buf.mapIdx (fun i x => if off ≤ i ∧ i < off + len then f x else x)

/-- `Spectrum.shift_axis`: a bare number is tagged with the spectrum's own
unit, converted to that unit, and added IN PLACE to the axis window
(`self.axis += offset.to(self.axis_unit)`). -/
def SpectrumSt.shift_axis (σ : ArrStore) (S : SpectrumSt) (offset : QN) : ArrStore :=
  let q : Quantity :=
    match offset with
    | .num v => ⟨v, S.axis_unit⟩
    | .qty q => q
  let d := (q.to S.axis_unit).value
  σ.set S.axis.buf (writeRange (σ.getD S.axis.buf []) S.axis.off S.axis.len (fun x => x + d))

/-- `Spectrum.map_to_axis`: tag each axis value with the unit, apply `fun`,
strip the values into a FRESH list, and rebind `self.axis` to it. -/
def SpectrumSt.map_to_axis (σ : ArrStore) (S : SpectrumSt) (f : Quantity → Quantity) :
    ArrStore × SpectrumSt :=
  let qtys := (readView σ S.axis).map (fun tick => Quantity.mk tick S.axis_unit)
  let newqtys := qtys.map f
  let newaxis := newqtys.map Quantity.value
  (σ ++ [newaxis], { S with axis := ⟨σ.length, 0, newaxis.length⟩ })

/-- Concrete store holding the scenario spectrum's buffers. -/
def scenStore : ArrStore := [[0, 1, 4, 9, 4, 1, 0], [0, 1, 2, 3, 4, 5, 6]]

/-- The scenario spectrum in the store model: full windows on both buffers. -/
def scenSt : SpectrumSt := ⟨⟨0, 0, 7⟩, ⟨1, 0, 7⟩, unitL⟩

/-- The counterexample spectrum for float indexing: its axis values are not
equal to their own pixel indices. -/
def cxC4 : Spectrum := ⟨[3, 4], [1, 0], unitL⟩

deriving instance DecidableEq for Except

/-!  Helper lemmas about the argmin/argmax scans and Python indexing.  -/

theorem argminList_lt_length : ∀ (xs : List ℚ), xs ≠ [] → argminList xs < xs.length
  | [], h => absurd rfl h
  | [_], _ => by simp [argminList]
  | x :: y :: rest, _ => by
      have ih := argminList_lt_length (y :: rest) (by simp)
      rw [argminList]
      split
      · simpa using Nat.succ_lt_succ ih
      · simp

theorem argminList_le : ∀ (xs : List ℚ) (k : Nat), k < xs.length →
    xs.getD (argminList xs) 0 ≤ xs.getD k 0
  | [], k, hk => absurd hk (by simp)
  | [x], k, hk => by
      have : k = 0 := by simpa using Nat.lt_one_iff.mp (by simpa using hk)
      subst this
      simp [argminList]
  | x :: y :: rest, k, hk => by
      have ih : ∀ m, m < (y :: rest).length →
          (y :: rest).getD (argminList (y :: rest)) 0 ≤ (y :: rest).getD m 0 :=
        fun m hm => argminList_le (y :: rest) m hm
      rw [argminList]
      by_cases hc : (y :: rest).getD (argminList (y :: rest)) 0 < x
      · rw [if_pos hc]
        cases k with
        | zero => simpa using le_of_lt hc
        | succ k' => simpa using ih k' (by simpa using hk)
      · rw [if_neg hc]
        cases k with
        | zero => simp
        | succ k' =>
            have hx : x ≤ (y :: rest).getD (argminList (y :: rest)) 0 := le_of_not_lt hc
            have hk' := ih k' (by simpa using hk)
            simpa using hx.trans hk'

theorem argmaxList_lt_length : ∀ (xs : List ℚ), xs ≠ [] → argmaxList xs < xs.length
  | [], h => absurd rfl h
  | [_], _ => by simp [argmaxList]
  | x :: y :: rest, _ => by
      have ih := argmaxList_lt_length (y :: rest) (by simp)
      rw [argmaxList]
      split
      · simpa using Nat.succ_lt_succ ih
      · simp

theorem getD_map (f : ℚ → ℚ) : ∀ (xs : List ℚ) (i : Nat), i < xs.length →
    (xs.map f).getD i 0 = f (xs.getD i 0)
  | [], i, h => absurd h (by simp)
  | x :: rest, 0, _ => by simp
  | x :: rest, i + 1, h => by simpa using getD_map f rest i (by simpa using h)

theorem argminAbs_lt_length (xs : List ℚ) (v : ℚ) (h : xs ≠ []) :
    argminAbs xs v < xs.length := by
  have := argminList_lt_length (xs.map fun t => |t - v|) (by simpa using h)
  simpa [argminAbs] using this

theorem argminAbs_le (xs : List ℚ) (v : ℚ) (k : Nat) (hk : k < xs.length) :
    |xs.getD (argminAbs xs v) 0 - v| ≤ |xs.getD k 0 - v| := by
  have hlt : argminAbs xs v < xs.length :=
    argminAbs_lt_length xs v (List.ne_nil_of_length_pos (by omega))
  have h1 := argminList_le (xs.map fun t => |t - v|) k (by simpa using hk)
  unfold argminAbs at hlt ⊢
  rw [getD_map _ xs _ hlt, getD_map _ xs _ hk] at h1
  exact h1

theorem pyGetInt_ofNat (xs : List ℚ) (n : Nat) (h : n < xs.length) :
    pyGetInt xs (n : Int) = .ok (xs.getD n 0) := by
  unfold pyGetInt
  rw [if_pos ⟨Int.natCast_nonneg n, by exact_mod_cast h⟩]
  simp


/-- C6: for every `Spectrum` `S` and every integer index `i` in range for
`S.data`, `S[i]` returns `S.data[i]` (direct pixel lookup). -/
theorem c6_int_index (S : Spectrum) (i : Int) (h1 : 0 ≤ i)
    (h2 : i < (S.data.length : Int)) :
    S.getitem (.int i) = .ok (.val (S.data.getD i.toNat 0)) := by
  have hp : pyGetInt S.data i = .ok (S.data.getD i.toNat 0) := by
    unfold pyGetInt
    rw [if_pos ⟨h1, h2⟩]
  simp only [Spectrum.getitem, hp]

/-- C6 witness: on the scenario spectrum, `S[2]` returns `4`. -/
theorem c6_int_index_witness : specScen.getitem (.int 2) = .ok (.val 4) := by
  have h := c6_int_index specScen 2 (by decide) (by with_unfolding_all decide)
  exact h.trans (by with_unfolding_all rfl)

/-- C7: nearest-pixel conversion is idempotent on exact axis values: for
every valid `k`, `_qty_to_pixel(S.axis[k])` returns `S.axis[k]` itself
(bare numbers are taken in the spectrum's own unit; ties break to the
first occurrence in scan order). -/
theorem c7_qty_to_pixel_idempotent (S : Spectrum) (k : Nat) (hk : k < S.axis.length) :
    S.qty_to_pixel (.num (S.axis.getD k 0)) = .ok (S.axis.getD k 0) := by
  have hne : S.axis ≠ [] := List.ne_nil_of_length_pos (by omega)
  have hle := argminAbs_le S.axis (S.axis.getD k 0) k hk
  have h0 : |S.axis.getD (argminAbs S.axis (S.axis.getD k 0)) 0 - S.axis.getD k 0| = 0 := by
    have hnn := abs_nonneg (S.axis.getD (argminAbs S.axis (S.axis.getD k 0)) 0 - S.axis.getD k 0)
    simp only [sub_self, abs_zero] at hle
    exact le_antisymm hle hnn
  have heq : S.axis.getD (argminAbs S.axis (S.axis.getD k 0)) 0 = S.axis.getD k 0 :=
    sub_eq_zero.mp (abs_eq_zero.mp h0)
  simp only [Spectrum.qty_to_pixel]
  rw [if_neg hne, heq]

/-- C7 witness: on the scenario spectrum, `_qty_to_pixel(3)` returns `3`. -/
theorem c7_witness : specScen.qty_to_pixel (.num 3) = .ok 3 :=
  c7_qty_to_pixel_idempotent specScen 3 (by with_unfolding_all decide)

/-- C9: a slice whose step is omitted (Python `None`, as in `S[a:b]`)
raises an `IndexError`, because `isinstance(None, int)` is false and the
step check rejects it before anything else. -/
theorem c9_none_step_raises (S : Spectrum) (st sp : Bnd) :
    S.getitem (.slice ⟨st, sp, .pynone⟩) = .error (.indexError "The step must be an int") :=
  rfl

/-- C8: a tuple index raises an `IndexError`, and a slice with a
non-integer step (a float or a quantity) raises an `IndexError` before any
lookup, whatever the bounds are; `getitem` is pure, so there is no partial
effect on `S`. -/
theorem c8_tuple_and_nonint_step (S : Spectrum) (st sp : Bnd) (v : ℚ) (q : Quantity) :
    S.getitem .tup = .error (.indexError "Too many indices for a Spectrum") ∧
      S.getitem (.slice ⟨st, sp, .float v⟩) = .error (.indexError "The step must be an int") ∧
      S.getitem (.slice ⟨st, sp, .qty q⟩) = .error (.indexError "The step must be an int") :=
  ⟨rfl, rfl, rfl⟩

/-- C5: a slice of plain integers `[a:b:c]` (valid: `c ≠ 0`) passes through
`_intify_slice` unchanged and yields a new `Spectrum` with `data[a:b:c]`,
`axis[a:b:c]` and the same `axis_unit`. -/
theorem c5_plain_int_slice (S : Spectrum) (a b c : Int) (hc : c ≠ 0) :
    S.getitem (.slice ⟨.int a, .int b, .int c⟩) =
      .ok (.spec ⟨pySliceList S.data (Option.some a) (Option.some b) c,
        pySliceList S.axis (Option.some a) (Option.some b) c, S.axis_unit⟩) := by
  simp only [Spectrum.getitem, Spectrum.intify_slice, pySliceArr, hc, if_false]

/-- C5 witness: on the scenario spectrum, `S[1:6:2]` has data `[1,9,1]`,
axis `[1,3,5]` and the same unit. -/
theorem c5_witness : specScen.getitem (.slice ⟨.int 1, .int 6, .int 2⟩) =
    .ok (.spec ⟨[1, 9, 1], [1, 3, 5], unitL⟩) := by
  have h := c5_plain_int_slice specScen 1 6 2 (by decide)
  exact h.trans (by with_unfolding_all rfl)

/-- C2: on the scenario spectrum the code returns amplitude `9`, mean `3`
and standard-deviation estimate `0` (not `2` as the claim states): both
half-maximum crossings are computed from the same after-peak sub-array. -/
theorem c2_line_guess_scenario : specScen.make_line_guess = .ok (9, 3, 0) := by
  with_unfolding_all decide

/-- C3: on the scenario spectrum `S[2*L:5]` (step omitted) raises
`IndexError` instead of returning a sub-spectrum; with an explicit integer
step, `S[2*L:5:1]` does return the sub-spectrum the claim describes
(pixels 2 through 4, data `[4,9,4]`, axis `[2,3,4]`). -/
theorem c3_quantity_slice_scenario :
    specScen.getitem (.slice ⟨.qty ⟨2, unitL⟩, .int 5, .pynone⟩) =
        .error (.indexError "The step must be an int") ∧
      specScen.getitem (.slice ⟨.qty ⟨2, unitL⟩, .int 5, .int 1⟩) =
        .ok (.spec ⟨[4, 9, 4], [2, 3, 4], unitL⟩) :=
  ⟨rfl, by with_unfolding_all decide⟩

/-- C4 counterexample: on a spectrum whose axis values differ from their
pixel indices, `S[f]` does NOT return the data sample at the nearest
pixel: the axis VALUE at the nearest pixel is used as the data index. -/
theorem c4_counterexample :
    cxC4.getitem (.float 0) ≠ .ok (.val (cxC4.data.getD (argminAbs cxC4.axis 0) 0)) := by
  with_unfolding_all decide

/-- C4 amended: `S[f]` tags `f` with the spectrum's own unit, finds the
nearest axis entry, and uses the axis VALUE found there as the index into
`data`; when the axis values equal their own pixel indices — as in the
scenario spectrum — this returns the data sample at the nearest pixel. -/
theorem c4_float_index_on_pixel_axes (S : Spectrum) (f : ℚ)
    (hu : S.axis_unit.scale ≠ 0)
    (hax : ∀ k, k < S.axis.length → S.axis.getD k 0 = (k : ℚ))
    (hne : S.axis ≠ [])
    (hlen : S.axis.length ≤ S.data.length) :
    S.getitem (.float f) = .ok (.val (S.data.getD (argminAbs S.axis f) 0)) := by
  have hj : argminAbs S.axis f < S.axis.length := argminAbs_lt_length S.axis f hne
  have hval : (Quantity.to ⟨f, S.axis_unit⟩ S.axis_unit).value = f := by
    unfold Quantity.to
    exact mul_div_cancel_right₀ f hu
  have hq : S.qty_to_pixel (.qty ⟨f, S.axis_unit⟩) = .ok ((argminAbs S.axis f : Nat) : ℚ) := by
    simp only [Spectrum.qty_to_pixel, hval]
    rw [if_neg hne, hax _ hj]
  have hden : ((argminAbs S.axis f : Nat) : ℚ).den = 1 := by simp
  have hnum : ((argminAbs S.axis f : Nat) : ℚ).num = ((argminAbs S.axis f : Nat) : Int) := by
    simp
  have hget : pyGetRat S.data ((argminAbs S.axis f : Nat) : ℚ) =
      .ok (S.data.getD (argminAbs S.axis f) 0) := by
    unfold pyGetRat
    rw [if_pos hden, hnum]
    exact pyGetInt_ofNat S.data _ (lt_of_lt_of_le hj hlen)
  simp only [Spectrum.getitem, hq, hget]

/-- C4 witness: on the scenario spectrum (whose axis values equal their
pixel indices), `S[2.0]` returns `4`. -/
theorem c4_witness : specScen.getitem (.float 2) = .ok (.val 4) := by
  have hax : ∀ k, k < specScen.axis.length → specScen.axis.getD k 0 = (k : ℚ) := by
    intro k hk
    have h7 : specScen.axis.length = 7 := rfl
    rw [h7] at hk
    interval_cases k <;> with_unfolding_all decide
  have h := c4_float_index_on_pixel_axes specScen 2
    (by with_unfolding_all decide) hax
    (by with_unfolding_all decide) (by with_unfolding_all decide)
  exact h.trans (by with_unfolding_all rfl)

/-- C10: whenever the data maximum is not at index 0 (so the before-peak
sub-array is non-empty), the standard-deviation estimate returned by
`_make_line_guess` is exactly 0, because `rval` and `lval` are the argmin
of the same after-peak deviation sub-array. -/
theorem c10_stddev_always_zero (S : Spectrum)
    (h1 : argmaxList S.data ≠ 0) (h2 : S.axis.length = S.data.length) :
    ∃ a m, S.make_line_guess = .ok (a, m, 0) := by
  have hne : S.data ≠ [] := by
    intro h
    rw [h] at h1
    exact h1 rfl
  have hamp : argmaxList S.data < S.data.length := argmaxList_lt_length S.data hne
  have hdrop :
      0 < ((S.data.map (fun x => |x - npMax S.data / 2|)).drop (argmaxList S.data)).length := by
    simp only [List.length_drop, List.length_map]
    omega
  have htake :
      0 < ((S.data.map (fun x => |x - npMax S.data / 2|)).take (argmaxList S.data)).length := by
    simp only [List.length_take, List.length_map]
    omega
  have hjlt :
      argminList ((S.data.map (fun x => |x - npMax S.data / 2|)).drop (argmaxList S.data)) <
        S.axis.length := by
    have hj := argminList_lt_length
      ((S.data.map (fun x => |x - npMax S.data / 2|)).drop (argmaxList S.data))
      (List.ne_nil_of_length_pos hdrop)
    simp only [List.length_drop, List.length_map] at hj
    omega
  have hmean := pyGetInt_ofNat S.axis (argmaxList S.data) (by omega)
  have hrj := pyGetInt_ofNat S.axis
    (argminList ((S.data.map (fun x => |x - npMax S.data / 2|)).drop (argmaxList S.data))) hjlt
  refine ⟨npMax S.data, S.axis.getD (argmaxList S.data) 0, ?_⟩
  simp only [Spectrum.make_line_guess, if_neg hne]
  simp [hmean, hdrop, htake, hrj]
  rw [if_pos hamp, if_pos ⟨Nat.pos_of_ne_zero h1, by omega⟩, hrj]
  simp

/-- C10 witness: on the scenario spectrum (peak at index 3) the returned
standard-deviation estimate is 0. -/
theorem c10_witness : ∃ a m, specScen.make_line_guess = .ok (a, m, 0) :=
  c10_stddev_always_zero specScen (by with_unfolding_all decide)
    (by with_unfolding_all decide)

/-- C1 counterexample: slicing shares the parent's axis buffer (numpy
views), so an in-place `shift_axis` on the parent changes the axis of the
previously slice-derived spectrum, contradicting independence. -/
theorem c1_counterexample :
    readView (SpectrumSt.shift_axis scenStore scenSt (.num 1)) (scenSt.getitemSlice 2 5).axis ≠
      readView scenStore (scenSt.getitemSlice 2 5).axis := by
  with_unfolding_all decide

/-- C1 amended: `map_to_axis` rebinds the receiver's axis to a freshly
allocated buffer, so mapping on the parent leaves a slice-derived
spectrum's axis unchanged and vice versa (while `shift_axis`, which
mutates the shared buffer in place, does not enjoy this independence). -/
theorem c1_map_to_axis_independent (σ : ArrStore) (S : SpectrumSt) (a b : Nat)
    (f g : Quantity → Quantity) (h : S.axis.buf < σ.length) :
    readView (SpectrumSt.map_to_axis σ S f).1 (S.getitemSlice a b).axis =
        readView σ (S.getitemSlice a b).axis ∧
      readView (SpectrumSt.map_to_axis σ (S.getitemSlice a b) g).1 S.axis =
        readView σ S.axis := by
  have key : ∀ (l : List ℚ) (v : AxView), v.buf < σ.length →
      readView (σ ++ [l]) v = readView σ v := by
    intro l v hv
    unfold readView
    rw [List.getD_append _ _ _ _ hv]
  exact ⟨key _ _ h, key _ _ h⟩

/-- C1 witness: the map-independence on the concrete scenario store with
the slice `[2:5:1]` and the identity axis function. -/
theorem c1_map_to_axis_independent_witness :
    readView (SpectrumSt.map_to_axis scenStore scenSt (fun q => q)).1
        (scenSt.getitemSlice 2 5).axis =
      readView scenStore (scenSt.getitemSlice 2 5).axis ∧
    readView (SpectrumSt.map_to_axis scenStore (scenSt.getitemSlice 2 5) (fun q => q)).1
        scenSt.axis =
      readView scenStore scenSt.axis :=
  c1_map_to_axis_independent scenStore scenSt 2 5 (fun q => q) (fun q => q)
    (by with_unfolding_all decide)
